import Mathlib

/-!
Shallow embedding of the brightwind correlation, shear and export modules
(src/brightwind/analyse/correlation.py, src/brightwind/analyse/shear.py,
src/brightwind/export/export.py), together with theorems settling the
specification claims about them.

Numeric modelling conventions:
* Python floats are modelled as exact rationals (`ℚ`) wherever the code only
  adds, subtracts, multiplies, divides and compares, and as reals (`ℝ`) where
  logarithms, exponentials or real powers appear (`np.log`, `np.exp`, `**`).
* A pandas time series is modelled as a list of (timestamp, optional value)
  pairs; a missing value (NaN) is `none` and `dropna` keeps the `some` rows.
* `scipy.linalg.lstsq` / `np.polyfit(deg=1)` on a two-column (value, 1) design
  matrix is embedded as the normal-equation solution
  slope = Sxy / Sxx, intercept = mean y - slope * mean x, which is what the
  least-squares routine returns whenever the design matrix has full column
  rank (Sxx not zero); the claims below only use it in that regime.
-/

namespace Brightwind

/-- Mean of a list of rationals, `np.mean`: sum divided by length
(the empty list gives `0/0 = 0`; the code never takes a mean of an
empty list on the paths the claims exercise). -/
def qmean (xs : List ℚ) : ℚ := xs.sum / xs.length

/-- Insert a rational into a list in front of the first element it does not
exceed (the inductive step of an ascending insertion sort). -/
def insertSorted (x : ℚ) : List ℚ → List ℚ
  | [] => [x]
  | y :: ys => if x ≤ y then x :: y :: ys else y :: insertSorted x ys

/-- Python's `sorted` / pandas `sort_values` on rational values: ascending
insertion sort. -/
def sortAsc (xs : List ℚ) : List ℚ := xs.foldr insertSorted []

/-! ### Correlation module: SpeedSort veer (correlation.py lines 540-551) -/

/-- `change_range` inside `SpeedSort._get_veer`: values above 180 lose a full
turn, values below -180 gain one, all others pass through unchanged. -/
def changeRange (veer : ℚ) : ℚ :=
  if veer > 180 then veer - 360
  else if veer < -180 then veer + 360
  else veer

/-- `SpeedSort._get_veer` applied to a single (reference direction, target
direction) pair: the wrapped difference target minus reference. -/
def getVeer (refDir targetDir : ℚ) : ℚ := changeRange (targetDir - refDir)

/-! ### Correlation module: MultipleLinearRegression.plot (correlation.py 313-314) -/

/-- Fitted-parameter state of a MultipleLinearRegression model: the
`'status': 'not yet run'` sentinel before `run()`, or the slopes/offset
afterwards. -/
inductive MLRParams where
  | notYetRun : MLRParams
  | fitted (slopes : List ℚ) (offset : ℚ) : MLRParams
deriving DecidableEq, Repr

/-- Outcome of a `plot` call: either a scatter plot of (x, y, predicted)
arrays, or a raised signal. -/
inductive PlotOutcome where
  | scatter (x y predicted : List ℚ) : PlotOutcome
  | notImplementedError : PlotOutcome
deriving DecidableEq, Repr

/-- `MultipleLinearRegression.plot`: the body is a bare
`raise NotImplementedError`, whatever the params state and title. -/
def mlrPlot (_params : MLRParams) (_title : String) : PlotOutcome :=
  PlotOutcome.notImplementedError

/-! ### Correlation module: SimpleSpeedRatio overlap window (correlation.py 349-355) -/

/-- A time series: (timestamp, optional value) rows; `none` is a missing
value (NaN). Timestamps are integers (ordinal time). -/
def TimeSeries : Type := List (ℤ × Option ℚ)

/-- Timestamps of the valid (non-missing) rows: the index after `dropna()`. -/
def validTimes (s : TimeSeries) : List ℤ :=
  (s.filter (fun r => r.2.isSome)).map (fun r => r.1)

/-- `series.dropna().index.min()`: earliest valid timestamp, `none` when the
series has no valid rows. -/
def firstValidTs (s : TimeSeries) : Option ℤ := (validTimes s).min?

/-- `series.dropna().index.max()`: latest valid timestamp. -/
def lastValidTs (s : TimeSeries) : Option ℤ := (validTimes s).max?

/-- Modelled from the spec: `tf._get_min_overlap_timestamp` lives in
`brightwind/transform/transform.py`, which is not among the source files;
per the spec the overlap start is "the later of the two earliest valid
timestamps". -/
def ssrStartTs (refSpd targetSpd : TimeSeries) : Option ℤ :=
  match firstValidTs refSpd, firstValidTs targetSpd with
  | some a, some b => some (max a b)
  | _, _ => none

/-- `SimpleSpeedRatio.__init__` line 353: the overlap end is
`min(ref_spd.dropna().index.max(), ref_spd.dropna().index.max())` -- the
reference series appears in BOTH arguments; the target series is never
consulted. -/
def ssrEndTs (refSpd _targetSpd : TimeSeries) : Option ℤ :=
  match lastValidTs refSpd, lastValidTs refSpd with
  | some a, some b => some (min a b)
  | _, _ => none

/-! ### Correlation module: OrdinaryLeastSquares (correlation.py 147-158, 95-98)

The aligned dataset is modelled as two functions `Fin n → ℚ` (reference and
target column of the merged dataframe).  `np.nan_to_num` is the identity on
data without missing values, which is the regime of claim C4.
`scipy.linalg.lstsq` on the design matrix with columns (x, 1) is embedded as
the normal-equation solution, the value lstsq returns whenever Sxx is not
zero. -/

/-- Mean of a column of the aligned dataset. -/
def fmean {n : ℕ} (f : Fin n → ℚ) : ℚ := (∑ i, f i) / n

/-- Centered sum of squares of the reference column. -/
def sxxOf {n : ℕ} (x : Fin n → ℚ) : ℚ := ∑ i, (x i - fmean x) ^ 2

/-- Centered cross sum of the reference and target columns. -/
def sxyOf {n : ℕ} (x y : Fin n → ℚ) : ℚ := ∑ i, (x i - fmean x) * (y i - fmean y)

/-- Slope returned by `lstsq` for the (x, 1) design matrix. -/
def olsSlope {n : ℕ} (x y : Fin n → ℚ) : ℚ := sxyOf x y / sxxOf x

/-- Offset returned by `lstsq` for the (x, 1) design matrix. -/
def olsOffset {n : ℕ} (x y : Fin n → ℚ) : ℚ := fmean y - olsSlope x y * fmean x

/-- `OrdinaryLeastSquares.run`: the fitted (slope, offset) parameter pair. -/
def olsRun {n : ℕ} (x y : Fin n → ℚ) : ℚ × ℚ := (olsSlope x y, olsOffset x y)

/-- `OrdinaryLeastSquares._predict` for a single value. -/
def olsPredict (slope offset v : ℚ) : ℚ := slope * v + offset

/-- `CorrelBase.get_r2` specialised to a linear `_predict`:
1 - (sum of squared residuals) / (sum of squared deviations of the target
from its mean). -/
def getR2 {n : ℕ} (x y : Fin n → ℚ) (slope offset : ℚ) : ℚ :=
  1 - (∑ i, (y i - olsPredict slope offset (x i)) ^ 2) / (∑ i, (y i - fmean y) ^ 2)

/-- `get_r2()` of an OrdinaryLeastSquares model after `run()`. -/
def olsGetR2 {n : ℕ} (x y : Fin n → ℚ) : ℚ :=
  getR2 x y (olsRun x y).1 (olsRun x y).2

/-! ### Correlation module: SpeedSort sector fit (correlation.py 392-414, 500) -/

/-- Result fields of `SpeedSort.SectorSpeedModel.__init__`. -/
structure SectorModel where
  targetCutoff : ℚ
  dataPts : ℕ
  slope : ℚ
  offset : ℚ
deriving DecidableEq, Repr

/-- The Python truncation-start loop of `SectorSpeedModel.__init__` lines
397-401: `start_idx` is the index of the first element at or above the
cutoff, and stays 0 when no element reaches the cutoff. -/
def pyFirstIdxGE (cutoff : ℚ) (xs : List ℚ) : ℕ :=
  if xs.any (fun w => decide (cutoff ≤ w)) then xs.findIdx (fun w => decide (cutoff ≤ w))
  else 0

/-- `SpeedSort.SectorSpeedModel.__init__`: sort the in-sector reference and
target speeds independently, truncate both from the Python loop's start
index, split at `int(len(x_data)/2)` and fit the line through the means of
the two halves. -/
def sectorSpeedModelFit (refSpd targetSpd : List ℚ) (cutoff : ℚ) : SectorModel :=
  let xData := sortAsc refSpd
  let yData := sortAsc targetSpd
  let startIdx := pyFirstIdxGE cutoff xData
  let xs := xData.drop startIdx
  let ys := yData.drop startIdx
  let midPnt := xs.length / 2
  let xmean1 := qmean (xs.take midPnt)
  let xmean2 := qmean (xs.drop midPnt)
  let ymean1 := qmean (ys.take midPnt)
  let ymean2 := qmean (ys.drop midPnt)
  let slope := (ymean2 - ymean1) / (xmean2 - xmean1)
  { targetCutoff := ys.headD 0
    dataPts := min xs.length ys.length
    slope := slope
    offset := ymean1 - xmean1 * slope }

/-- `SpeedSort.__init__` line 500: the global speed cutoff
`min(0.5 * lt_ref_speed, 4.0)`. -/
def speedSortCutoff (ltRefSpeed : ℚ) : ℚ := min (1 / 2 * ltRefSpeed) 4

/-- The per-sector fit `run()` performs (correlation.py 566-570): a
`SectorSpeedModel` on the sector's speeds with the global cutoff. -/
def runSectorFit (ltRefSpeed : ℚ) (refSpd targetSpd : List ℚ) : SectorModel :=
  sectorSpeedModelFit refSpd targetSpd (speedSortCutoff ltRefSpeed)

/-- The sector fit exactly as the specification words it, for comparison with
`runSectorFit`: both in-sector arrays sorted ascending (rank-matched),
both truncated from the first index at which the sorted reference speed
reaches the cutoff `min(0.5 * long-term-reference-speed, 4.0)`, each
truncated array split at its midpoint index, slope and offset from the means
of the two halves. -/
def specSectorFit (refSpd targetSpd : List ℚ) (ltRefSpeed : ℚ) : ℚ × ℚ :=
  let cutoff := min (1 / 2 * ltRefSpeed) 4
  let xs0 := sortAsc refSpd
  let ys0 := sortAsc targetSpd
  let i := xs0.findIdx (fun w => decide (cutoff ≤ w))
  let xs := xs0.drop i
  let ys := ys0.drop i
  let mx := xs.length / 2
  let my := ys.length / 2
  let xbar1 := qmean (xs.take mx)
  let xbar2 := qmean (xs.drop mx)
  let ybar1 := qmean (ys.take my)
  let ybar2 := qmean (ys.drop my)
  let slope := (ybar2 - ybar1) / (xbar2 - xbar1)
  (slope, ybar1 - xbar1 * slope)

/-! ### Export module: export_tab_file (export.py 48-65)

Only the statements that touch a table are modelled with state: line 48
copies the caller's table, line 58 replaces the interval index of the copy by
the interval right edges, and line 64 rescales every sector column of the
copy.  The read-only glue (speed-interval set, sector count, frequency sums,
string assembly) does not write to any table and is omitted from the store
model; the percentage table that ends up in the file is exposed through
`writtenPercentages`. -/

/-- The index of a frequency table: speed-bin intervals as produced by
`freq_table`, or the bare interval right edges after export.py line 58. -/
inductive TabIndex where
  | intervals (iv : List (ℚ × ℚ)) : TabIndex
  | rights (r : List ℚ) : TabIndex
deriving DecidableEq, Repr

/-- A frequency table: its index and one list of per-speed-bin values per
sector column. -/
structure FreqTab where
  index : TabIndex
  cols : List (List ℚ)
deriving DecidableEq, Repr

/-- A default (empty) frequency table, used as the out-of-range fallback of
store lookups. -/
def emptyTab : FreqTab := { index := TabIndex.intervals [], cols := [] }

/-- Right edges of a table index (export.py line 58 list comprehension). -/
def rightEdges : TabIndex → List ℚ
  | TabIndex.intervals iv => iv.map (fun p => p.2)
  | TabIndex.rights r => r

/-- export.py line 58 on one table: replace the interval index by the
interval right edges. -/
def setIndexRights (t : FreqTab) : FreqTab :=
  { t with index := TabIndex.rights (rightEdges t.index) }

/-- export.py line 64 on one column: `col / sum(col) * 1000`. -/
def normalizeCol (col : List ℚ) : List ℚ :=
  col.map (fun v => v / col.sum * 1000)

/-- export.py lines 63-64 on one table: rescale every sector column so it
sums to 1000. -/
def scaleCols (t : FreqTab) : FreqTab :=
  { t with cols := t.cols.map normalizeCol }

/-- Two-decimal formatting followed by re-parsing ('%.2f' round trip): the
nearest multiple of 1/100. -/
def round2 (x : ℚ) : ℚ := ((round (100 * x) : ℤ) : ℚ) / 100

/-- The per-speed-bin, per-sector percentage table as written to (and parsed
back from) the tab file: the scaled columns after two-decimal formatting. -/
def writtenPercentages (t : FreqTab) : List (List ℚ) :=
  (scaleCols (setIndexRights t)).cols.map (List.map round2)

/-- The table-store effect of `export_tab_file` on a store of frequency
tables, with the caller's table at position `ref`: line 48 allocates a copy
at a fresh position, and lines 58 and 63-64 mutate only that copy. -/
def exportTabFileStore (store : List FreqTab) (ref : Nat) : List FreqTab :=
  let lref := store.length
  let store1 := store ++ [store.getD ref emptyTab]
  let store2 := store1.set lref (setIndexRights (store1.getD lref emptyTab))
  store2.set lref (scaleCols (store2.getD lref emptyTab))

/-! ### Shear module: Average estimator (shear.py 200-318, 487-516, 519-552,
599-642, 645-755)

Wind speeds stay rational up to the fitting step; heights are rational and
are sent through `Real.log` inside the fits.  `np.polyfit(..., deg=1)` is
embedded as the normal-equation least-squares solution (see the header
note). -/

/-- Mean of a list of reals. -/
noncomputable def rmean (xs : List ℝ) : ℝ := xs.sum / xs.length

/-- Centered sum of squares of a list of reals. -/
noncomputable def rsxx (xs : List ℝ) : ℝ :=
  (xs.map (fun v => (v - rmean xs) ^ 2)).sum

/-- Centered cross sum of two lists of reals. -/
noncomputable def rsxy (xs ys : List ℝ) : ℝ :=
  (List.zipWith (fun u v => (u - rmean xs) * (v - rmean ys)) xs ys).sum

/-- `np.polyfit(xs, ys, deg=1)` as the normal-equation solution:
(slope, intercept) with slope = Sxy / Sxx and intercept = mean ys - slope *
mean xs. -/
noncomputable def polyfit1 (xs ys : List ℝ) : ℝ × ℝ :=
  (rsxy xs ys / rsxx xs, rmean ys - rsxy xs ys / rsxx xs * rmean xs)

/-- `_calc_power_law(wspds, heights, return_coeff=True)`: linear fit of
log speed against log height; returns (slope, exp intercept). -/
noncomputable def calcPowerLaw (wspds heights : List ℚ) : ℝ × ℝ :=
  let c := polyfit1 (heights.map (fun h => Real.log (h : ℝ)))
                    (wspds.map (fun w => Real.log (w : ℝ)))
  (c.1, Real.exp c.2)

/-- `_calc_log_law(wspds, heights, return_coeff=True)`: linear fit of speed
against log height; returns (slope, intercept). -/
noncomputable def calcLogLaw (wspds heights : List ℚ) : ℝ × ℝ :=
  polyfit1 (heights.map (fun h => Real.log (h : ℝ))) (wspds.map (fun w => (w : ℝ)))

/-- `_calc_roughness_coeff(wspds, heights)`: sort speeds and heights
ascending, form the pairwise roughness estimates
exp((w_i ln h_{i+1} - w_{i+1} ln h_i) / (w_i - w_{i+1})), and return their
mean. -/
noncomputable def calcRoughness (wspds heights : List ℚ) : ℝ :=
  let ws := sortAsc wspds
  let hs := sortAsc heights
  let rs := (List.range (ws.length - 1)).map (fun i =>
    Real.exp ((((ws.getD i 0 : ℚ) : ℝ) * Real.log ((hs.getD (i + 1) 0 : ℚ) : ℝ)
      - ((ws.getD (i + 1) 0 : ℚ) : ℝ) * Real.log ((hs.getD i 0 : ℚ) : ℝ))
      / (((ws.getD i 0 : ℚ) : ℝ) - ((ws.getD (i + 1) 0 : ℚ) : ℝ))))
  rmean rs

/-- Fitted parameters of a Shear.Average estimator: the calculation method
tag together with its coefficients. -/
inductive AvgParams where
  | powerLaw (alpha c : ℝ) : AvgParams
  | logLaw (slope intercept roughness : ℝ) : AvgParams

/-- `wspds.dropna()`: keep the rows in which every height's value is
present. -/
def dropnaRows (wspds : List (List (Option ℚ))) : List (List ℚ) :=
  wspds.filterMap (fun r => r.mapM id)

/-- `wspds[(wspds > min_speed).all(axis=1)]`: keep the rows in which every
height's speed exceeds the minimum speed. -/
def survivingRows (rows : List (List ℚ)) (minSpeed : ℚ) : List (List ℚ) :=
  rows.filter (fun r => r.all (fun v => decide (minSpeed < v)))

/-- Columns of a row-major matrix, using the first row's width (pandas
DataFrames are rectangular). -/
def columnsOf (rows : List (List ℚ)) : List (List ℚ) :=
  match rows with
  | [] => []
  | r :: _ => (List.range r.length).map (fun j => rows.map (fun row => row.getD j 0))

/-- `mean_wspds` of `Average.__init__` line 243: column-wise means of the
surviving rows; `.dropna()` leaves the empty list exactly when no row
survived (the mean of an empty column is NaN) or the matrix has no
columns. -/
def meanWspds (wspds : List (List (Option ℚ))) (minSpeed : ℚ) : List ℚ :=
  if (survivingRows (dropnaRows wspds) minSpeed).isEmpty then []
  else (columnsOf (survivingRows (dropnaRows wspds) minSpeed)).map qmean

/-- `Shear.Average.__init__` (shear.py 239-278): drop missing rows, filter by
minimum speed, take column means, fail if none remain, then dispatch on the
calculation method, failing on an unknown method name (line 261).  After the
dispatch the constructor unconditionally executes
`output_data['alpha'] = alpha` (line 271); `alpha` is a local variable
assigned only inside the power-law branch (line 247), so although the
log-law branch fits `_calc_log_law` and `_calc_roughness_coeff` and assigns
attributes, every log-law construction then raises UnboundLocalError at
line 271 and the constructor never returns an estimator.  The coverage
computation and the plot are display glue and are omitted. -/
noncomputable def averageInit (wspds : List (List (Option ℚ))) (heights : List ℚ)
    (calcMethod : String) (minSpeed : ℚ) : Except String AvgParams :=
  if (meanWspds wspds minSpeed).isEmpty then
    Except.error "None of the input wind speeds are greater than the min_speed, cannot calculate shear"
  else if calcMethod = "power_law" then
    Except.ok (AvgParams.powerLaw (calcPowerLaw (meanWspds wspds minSpeed) heights).1
      (calcPowerLaw (meanWspds wspds minSpeed) heights).2)
  else if calcMethod = "log_law" then
    Except.error "UnboundLocalError: local variable alpha referenced before assignment"
  else
    Except.error "Please enter a valid calculation method, \"power_law or \"log_law\""

/-- `log_scale(wspds, height, height_to_scale_to, slope, intercept)`
(shear.py 487-495) on a single speed. -/
noncomputable def logScale (wspd height hts slope intercept : ℝ) : ℝ :=
  let graphSpeed := slope * Real.log height + intercept
  let err := -(graphSpeed - wspd) / graphSpeed
  let scaledGraphSpeed := slope * Real.log hts + intercept
  scaledGraphSpeed + err * scaledGraphSpeed

/-- `_scale` with `calc_method='power_law'` (shear.py 631-635):
multiply every speed by `(height_to_scale_to / height) ** alpha`. -/
noncomputable def scalePower (wspds : List ℝ) (height hts alpha : ℝ) : List ℝ :=
  wspds.map (fun w => w * (hts / height) ^ alpha)

/-- `_scale` with `calc_method='log_law'` (shear.py 637-642): apply
`log_scale` to every speed.  The `roughness_coefficient` argument of
`_scale` is never read on this path. -/
noncomputable def scaleLog (wspds : List ℝ) (height hts slope intercept : ℝ) : List ℝ :=
  wspds.map (fun w => logScale w height hts slope intercept)

/-- `_apply` for an estimator with `origin == 'Average'` (shear.py 740-753).
On the power-law branch the source passes `height_to_scale_to=height`
(line 748), so the scaling target sent to `_scale` is the SOURCE height; on
the log-law branch it passes `height_to_scale_to` through. -/
noncomputable def averageApply (p : AvgParams) (wspds : List ℝ) (height hts : ℝ) : List ℝ :=
  match p with
  | AvgParams.powerLaw alpha _ => scalePower wspds height height alpha
  | AvgParams.logLaw slope intercept _ => scaleLog wspds height hts slope intercept

/-! ## Theorems -/

/-- Membership is preserved by sorted insertion. -/
theorem mem_insertSorted (a x : ℚ) (l : List ℚ) :
    a ∈ insertSorted x l ↔ a = x ∨ a ∈ l := by
  induction l with
  | nil => simp [insertSorted]
  | cons y ys ih =>
      unfold insertSorted
      by_cases h : x ≤ y
      · simp [h]
      · simp [h, ih]
        tauto

/-- Membership is preserved by the ascending sort. -/
theorem mem_sortAsc (a : ℚ) (l : List ℚ) : a ∈ sortAsc l ↔ a ∈ l := by
  induction l with
  | nil => simp [sortAsc]
  | cons y ys ih =>
      show a ∈ insertSorted y (sortAsc ys) ↔ _
      rw [mem_insertSorted]
      simp [ih]

/-- Sorted insertion adds one element to the length. -/
theorem length_insertSorted (x : ℚ) (l : List ℚ) :
    (insertSorted x l).length = l.length + 1 := by
  induction l with
  | nil => rfl
  | cons y ys ih =>
      unfold insertSorted
      by_cases h : x ≤ y
      · simp [h]
      · simp [h, ih]

/-- The ascending sort preserves length. -/
theorem length_sortAsc (l : List ℚ) : (sortAsc l).length = l.length := by
  induction l with
  | nil => rfl
  | cons y ys ih =>
      show (insertSorted y (sortAsc ys)).length = _
      rw [length_insertSorted, ih]
      rfl

/-- Claim C5: on a sector whose reference and target speed arrays have equal
length (as the in-sector columns of the aligned dataset do) and in which at
least one reference speed reaches the global cutoff
min(0.5 * long-term-reference-speed, 4.0), the slope and offset fitted by
`run()` through `SectorSpeedModel` are exactly the ones the specification
describes: independently sorted ascending, truncated from the first index at
which the sorted reference speed reaches the cutoff, split at the midpoint
index, line through the means of the two halves. -/
theorem runSectorFit_matches_spec (ltRefSpeed : ℚ) (refSpd targetSpd : List ℚ)
    (hlen : refSpd.length = targetSpd.length)
    (hex : ∃ w ∈ refSpd, speedSortCutoff ltRefSpeed ≤ w) :
    (runSectorFit ltRefSpeed refSpd targetSpd).slope
      = (specSectorFit refSpd targetSpd ltRefSpeed).1
    ∧ (runSectorFit ltRefSpeed refSpd targetSpd).offset
      = (specSectorFit refSpd targetSpd ltRefSpeed).2 := by
  obtain ⟨w, hw, hcw⟩ := hex
  have hany : (sortAsc refSpd).any (fun v => decide (speedSortCutoff ltRefSpeed ≤ v)) = true := by
    rw [List.any_eq_true]
    exact ⟨w, (mem_sortAsc w refSpd).mpr hw, decide_eq_true hcw⟩
  have hlen2 : (sortAsc targetSpd).length = (sortAsc refSpd).length := by
    rw [length_sortAsc, length_sortAsc, hlen]
  simp only [runSectorFit, sectorSpeedModelFit, specSectorFit, speedSortCutoff,
    pyFirstIdxGE] at *
  rw [if_pos hany]
  constructor <;>
    simp only [List.length_drop, hlen2]

/-- Witness for claim C5: long-term reference speed 8 (cutoff 4), sector
reference speeds (3, 5, 4), sector target speeds (2, 6, 7). -/
theorem runSectorFit_matches_spec_witness :
    (runSectorFit 8 [3, 5, 4] [2, 6, 7]).slope = (specSectorFit [3, 5, 4] [2, 6, 7] 8).1
    ∧ (runSectorFit 8 [3, 5, 4] [2, 6, 7]).offset = (specSectorFit [3, 5, 4] [2, 6, 7] 8).2 :=
  runSectorFit_matches_spec 8 [3, 5, 4] [2, 6, 7] (by norm_num)
    ⟨5, by norm_num, by norm_num [speedSortCutoff]⟩

/-- Two-decimal formatting moves a value by at most 1/200. -/
theorem round2_err (x : ℚ) : |round2 x - x| ≤ 1 / 200 := by
  have h := abs_sub_round (100 * x)
  have heq : round2 x - x = -((100 * x - (round (100 * x) : ℤ)) / 100) := by
    unfold round2
    ring
  rw [heq, abs_neg, abs_div]
  have h100 : |(100 : ℚ)| = 100 := by norm_num
  rw [h100, div_le_iff₀ (by norm_num : (0 : ℚ) < 100)]
  calc |100 * x - ((round (100 * x) : ℤ) : ℚ)| ≤ 1 / 2 := h
    _ = 1 / 200 * 100 := by norm_num

/-- Summing a two-decimal-formatted list moves the sum by at most
length / 200. -/
theorem sum_round2_err (l : List ℚ) :
    |(l.map round2).sum - l.sum| ≤ (l.length : ℚ) / 200 := by
  induction l with
  | nil => simp
  | cons x xs ih =>
      simp only [List.map_cons, List.sum_cons, List.length_cons]
      calc |round2 x + (xs.map round2).sum - (x + xs.sum)|
          = |(round2 x - x) + ((xs.map round2).sum - xs.sum)| := by ring_nf
        _ ≤ |round2 x - x| + |(xs.map round2).sum - xs.sum| := abs_add _ _
        _ ≤ 1 / 200 + (xs.length : ℚ) / 200 := add_le_add (round2_err x) ih
        _ = ((xs.length + 1 : ℕ) : ℚ) / 200 := by push_cast; ring

/-- Claim C9: every sector column of the frequency table, rescaled by
export.py line 64, sums to exactly 1000, and after the two-decimal
formatting round trip to the written tab file the parsed column sum is
within length / 200 of 1000; that formatted column is a column of the
written percentage table. -/
theorem exportTab_column_sums (t : FreqTab) (col : List ℚ)
    (hmem : col ∈ t.cols) (hs : col.sum ≠ 0) :
    (normalizeCol col).sum = 1000
    ∧ |(List.map round2 (normalizeCol col)).sum - 1000| ≤ (col.length : ℚ) / 200
    ∧ List.map round2 (normalizeCol col) ∈ writtenPercentages t := by
  have hgen : ∀ (s : ℚ) (l : List ℚ), (l.map (fun v => v / s * 1000)).sum = l.sum / s * 1000 := by
    intro s l
    induction l with
    | nil => simp
    | cons a as ih =>
        simp only [List.map_cons, List.sum_cons, ih]
        ring
  have hnorm : (normalizeCol col).sum = 1000 := by
    unfold normalizeCol
    rw [hgen, div_self hs, one_mul]
  refine ⟨hnorm, ?_, ?_⟩
  · have h := sum_round2_err (normalizeCol col)
    rw [hnorm] at h
    have hlen : (normalizeCol col).length = col.length := by
      unfold normalizeCol
      simp
    rw [hlen] at h
    exact h
  · unfold writtenPercentages scaleCols setIndexRights
    exact List.mem_map_of_mem _ (List.mem_map_of_mem _ hmem)

/-- Witness for claim C9: a two-bin, two-sector table; the first column
(1, 3) rescales to (250, 750). -/
theorem exportTab_column_sums_witness :
    (normalizeCol [1, 3]).sum = 1000
    ∧ |(List.map round2 (normalizeCol [1, 3])).sum - 1000| ≤ (([1, 3] : List ℚ).length : ℚ) / 200
    ∧ List.map round2 (normalizeCol [1, 3])
        ∈ writtenPercentages { index := TabIndex.intervals [(0, 1), (1, 2)], cols := [[1, 3], [2, 2]] } :=
  exportTab_column_sums { index := TabIndex.intervals [(0, 1), (1, 2)], cols := [[1, 3], [2, 2]] }
    [1, 3] (by simp) (by norm_num)

/-- Claim C10: `export_tab_file` does not change the caller's frequency
table: the copy at line 48 is allocated at a fresh store position and the
index replacement and column rescaling mutate only that position. -/
theorem exportTabFile_preserves_caller (store : List FreqTab) (ref : Nat)
    (h : ref < store.length) :
    (exportTabFileStore store ref)[ref]? = store[ref]? := by
  simp only [exportTabFileStore]
  have hne : store.length ≠ ref := (Nat.ne_of_lt h).symm
  rw [List.getElem?_set_ne, List.getElem?_set_ne, List.getElem?_append_left h]
  · exact hne
  · exact hne

/-- Witness for claim C10: a one-table store is unchanged at position 0. -/
theorem exportTabFile_preserves_caller_witness :
    (exportTabFileStore [{ index := TabIndex.intervals [(0, 1)], cols := [[2]] }] 0)[0]?
      = [({ index := TabIndex.intervals [(0, 1)], cols := [[2]] } : FreqTab)][0]? :=
  exportTabFile_preserves_caller [{ index := TabIndex.intervals [(0, 1)], cols := [[2]] }] 0
    (by decide)

/-- Claim C2: the SimpleSpeedRatio overlap end is computed from the
reference series alone (correlation.py line 353 takes the minimum of the
reference maximum with itself), so on a reference valid through timestamp 2
and a target valid only through timestamp 1 the window end is 2, exceeding
the target's last valid timestamp. -/
theorem ssrEndTs_exceeds_target_last :
    ssrEndTs [((0 : ℤ), some (1 : ℚ)), (1, some 2), (2, some 3)]
             [((0 : ℤ), some (1 : ℚ)), (1, some 2)] = some 2
    ∧ lastValidTs [((0 : ℤ), some (1 : ℚ)), (1, some 2)] = some 1
    ∧ ¬ ((2 : ℤ) ≤ (1 : ℤ)) := by decide

/-- Claim C6 (counterexample): it is not true that the SpeedSort veer always
lies in the half-open interval (-180, 180]: at reference direction 180 and
target direction 0 the veer is exactly -180. -/
theorem getVeer_not_always_above_neg180 :
    ¬ (∀ r t : ℚ, 0 ≤ r → r < 360 → 0 ≤ t → t < 360 →
        -180 < getVeer r t ∧ getVeer r t ≤ 180) := by
  intro h
  have h2 := (h 180 0 (by norm_num) (by norm_num) (by norm_num) (by norm_num)).1
  norm_num [getVeer, changeRange] at h2

/-- Claim C6 (amended): for reference and target directions in [0, 360),
the veer computed by `SpeedSort._get_veer` lies in the CLOSED interval
[-180, 180]; a raw difference of exactly -180 is returned unchanged rather
than wrapped to 180. -/
theorem getVeer_mem_Icc (r t : ℚ) (hr0 : 0 ≤ r) (hr1 : r < 360)
    (ht0 : 0 ≤ t) (ht1 : t < 360) :
    -180 ≤ getVeer r t ∧ getVeer r t ≤ 180 := by
  unfold getVeer changeRange
  split_ifs with h1 h2
  · constructor <;> linarith
  · constructor <;> linarith
  · push_neg at h1 h2
    constructor <;> linarith

/-- Witness for the amended claim C6 at reference 10, target 350. -/
theorem getVeer_mem_Icc_witness :
    -180 ≤ getVeer 10 350 ∧ getVeer 10 350 ≤ 180 :=
  getVeer_mem_Icc 10 350 (by norm_num) (by norm_num) (by norm_num) (by norm_num)

/-- Claim C7: `MultipleLinearRegression.plot` raises NotImplementedError
immediately and unconditionally, whatever the parameter state (fitted or
the not-yet-run sentinel) and whatever the title. -/
theorem mlrPlot_always_notImplemented (p : MLRParams) (title : String) :
    mlrPlot p title = PlotOutcome.notImplementedError := rfl

/-- Claim C4: when the aligned target is an exact affine function of the
aligned reference and the target is not constant, the R-squared reported by
OrdinaryLeastSquares after `run()` equals 1. -/
theorem olsGetR2_affine_exact {n : ℕ} (x y : Fin n → ℚ) (a b : ℚ)
    (haff : ∀ i, y i = a * x i + b)
    (hy : ∃ i j, y i ≠ y j) :
    olsGetR2 x y = 1 := by
  obtain ⟨i0, j0, hij⟩ := hy
  have hn : (n : ℚ) ≠ 0 := by
    have hpos : 0 < n := i0.pos
    exact_mod_cast hpos.ne'
  have ha : a ≠ 0 := by
    intro h0
    exact hij (by rw [haff i0, haff j0, h0]; ring)
  have hx : x i0 ≠ x j0 := by
    intro he
    exact hij (by rw [haff i0, haff j0, he])
  have hmean : fmean y = a * fmean x + b := by
    unfold fmean
    have hsum : (∑ i, y i) = a * (∑ i, x i) + n * b := by
      calc (∑ i, y i) = ∑ i, (a * x i + b) :=
            Finset.sum_congr rfl (fun i _ => haff i)
        _ = a * (∑ i, x i) + n * b := by
            rw [Finset.sum_add_distrib, Finset.mul_sum]
            simp [Finset.sum_const, Finset.card_univ, mul_comm]
    rw [hsum]
    field_simp
    ring
  have hdev : ∀ i, y i - fmean y = a * (x i - fmean x) := by
    intro i
    rw [haff i, hmean]
    ring
  have hsxy : sxyOf x y = a * sxxOf x := by
    unfold sxyOf sxxOf
    rw [Finset.mul_sum]
    refine Finset.sum_congr rfl (fun i _ => ?_)
    rw [hdev i]
    ring
  have hk : ∃ k, x k ≠ fmean x := by
    by_contra hc
    push_neg at hc
    exact hx ((hc i0).trans (hc j0).symm)
  have hsxx : 0 < sxxOf x := by
    obtain ⟨k, hkk⟩ := hk
    have hne : x k - fmean x ≠ 0 := sub_ne_zero.mpr hkk
    have hpos : 0 < (x k - fmean x) ^ 2 := by positivity
    calc (0 : ℚ) < (x k - fmean x) ^ 2 := hpos
      _ ≤ ∑ i, (x i - fmean x) ^ 2 :=
          Finset.single_le_sum (fun i _ => sq_nonneg (x i - fmean x)) (Finset.mem_univ k)
  have hslope : olsSlope x y = a := by
    unfold olsSlope
    rw [hsxy]
    field_simp
  have hoffset : olsOffset x y = b := by
    unfold olsOffset
    rw [hslope, hmean]
    ring
  have hnum : (∑ i, (y i - olsPredict (olsSlope x y) (olsOffset x y) (x i)) ^ 2) = 0 := by
    refine Finset.sum_eq_zero (fun i _ => ?_)
    rw [hslope, hoffset, haff i]
    unfold olsPredict
    ring
  have hden : (∑ i, (y i - fmean y) ^ 2) ≠ 0 := by
    have hrw : (∑ i, (y i - fmean y) ^ 2) = a ^ 2 * sxxOf x := by
      unfold sxxOf
      rw [Finset.mul_sum]
      refine Finset.sum_congr rfl (fun i _ => ?_)
      rw [hdev i]
      ring
    rw [hrw]
    exact mul_ne_zero (pow_ne_zero 2 ha) hsxx.ne'
  unfold olsGetR2 getR2 olsRun
  rw [hnum]
  simp

/-- Witness for claim C4: reference (0, 1), target (1, 3) = 2 * ref + 1. -/
theorem olsGetR2_affine_exact_witness :
    olsGetR2 ![(0 : ℚ), 1] ![(1 : ℚ), 3] = 1 :=
  olsGetR2_affine_exact ![(0 : ℚ), 1] ![(1 : ℚ), 3] 2 1
    (by intro i; fin_cases i <;> norm_num)
    ⟨0, 1, by norm_num⟩

/-- Claim C8: `Shear.Average` construction fails with the no-qualifying-rows
ValueError whenever no row of the (dropna-filtered) wind-speed matrix has
all heights above `min_speed`, whatever the calculation method; and it fails
with a ValueError whenever the calculation-method name is neither
'power_law' nor 'log_law'. -/
theorem averageInit_domain_errors (wspds : List (List (Option ℚ))) (heights : List ℚ)
    (calcMethod : String) (minSpeed : ℚ) :
    (survivingRows (dropnaRows wspds) minSpeed = [] →
      averageInit wspds heights calcMethod minSpeed
        = Except.error "None of the input wind speeds are greater than the min_speed, cannot calculate shear")
    ∧ (calcMethod ≠ "power_law" → calcMethod ≠ "log_law" →
      ∃ msg, averageInit wspds heights calcMethod minSpeed = Except.error msg) := by
  constructor
  · intro hempty
    simp [averageInit, meanWspds, hempty]
  · intro h1 h2
    simp only [averageInit]
    split_ifs with hA
    · exact ⟨_, rfl⟩
    · exact ⟨_, rfl⟩

/-- Mean of a two-element list of reals. -/
theorem rmean_pair (a b : ℝ) : rmean [a, b] = (a + b) / 2 := by
  simp [rmean]

/-- Centered sum of squares of a two-element list. -/
theorem rsxx_pair (a b : ℝ) : rsxx [a, b] = (b - a) ^ 2 / 2 := by
  simp [rsxx, rmean_pair]
  ring

/-- Centered cross sum of two two-element lists. -/
theorem rsxy_pair (a b c d : ℝ) : rsxy [a, b] [c, d] = (b - a) * (d - c) / 2 := by
  simp [rsxy, rmean_pair]
  ring

/-- The degree-1 fit through two points with distinct abscissae is the exact
secant line. -/
theorem polyfit1_pair (a b c d : ℝ) (h : b ≠ a) :
    polyfit1 [a, b] [c, d] = ((d - c) / (b - a), c - (d - c) / (b - a) * a) := by
  have hba : b - a ≠ 0 := sub_ne_zero.mpr h
  rw [Prod.ext_iff]
  have hslope : rsxy [a, b] [c, d] / rsxx [a, b] = (d - c) / (b - a) := by
    rw [rsxy_pair, rsxx_pair]
    field_simp
    ring
  constructor
  · simpa [polyfit1] using hslope
  · simp only [polyfit1]
    rw [hslope, rmean_pair, rmean_pair]
    field_simp
    ring

/-- Column means of the one-row matrix (4, 8) with min_speed 3. -/
theorem meanWspds_4_8 : meanWspds [[some 4, some 8]] 3 = [4, 8] := by
  norm_num [meanWspds, survivingRows, dropnaRows, columnsOf, qmean, List.filter,
    List.filterMap, List.range_succ]

/-- The power-law fit of speeds (4, 8) at heights (40, 80): alpha 1,
coefficient 1/10. -/
theorem calcPowerLaw_4_8_40_80 : calcPowerLaw [4, 8] [40, 80] = (1, 1 / 10) := by
  have hL : Real.log 2 ≠ 0 := ne_of_gt (Real.log_pos (by norm_num))
  have h1 : Real.log 80 ≠ Real.log 40 :=
    ne_of_gt (Real.log_lt_log (by norm_num : (0 : ℝ) < 40) (by norm_num : (40 : ℝ) < 80))
  have e1 : Real.log 8 - Real.log 4 = Real.log 2 := by
    rw [show (8 : ℝ) = 4 * 2 by norm_num, Real.log_mul (by norm_num) (by norm_num)]
    ring
  have e2 : Real.log 80 - Real.log 40 = Real.log 2 := by
    rw [show (80 : ℝ) = 40 * 2 by norm_num, Real.log_mul (by norm_num) (by norm_num)]
    ring
  have hslope : (Real.log 8 - Real.log 4) / (Real.log 80 - Real.log 40) = 1 := by
    rw [e1, e2, div_self hL]
  have hpair := polyfit1_pair (Real.log 40) (Real.log 80) (Real.log 4) (Real.log 8) h1
  simp only [calcPowerLaw, List.map_cons, List.map_nil]
  norm_num
  rw [hpair]
  constructor
  · exact hslope
  · show Real.exp (Real.log 4 - (Real.log 8 - Real.log 4) / (Real.log 80 - Real.log 40) * Real.log 40) = 1 / 10
    rw [hslope, one_mul, ← Real.log_div (by norm_num) (by norm_num)]
    rw [show (4 : ℝ) / 40 = 1 / 10 by norm_num]
    exact Real.exp_log (by norm_num)

/-- Claim C1: a Shear.Average estimator fitted with the power law on speeds
(4, 8) at heights (40, 80) has alpha 1, yet `apply` on the series (5) from
height 40 to height 80 returns (5) unchanged, because shear.py line 748
passes `height_to_scale_to=height` into `_scale`; the specified scaling
original * (target_height / source_height) ** alpha would give (10). -/
theorem averageApply_powerLaw_ignores_target_height :
    averageInit [[some 4, some 8]] [40, 80] "power_law" 3
      = Except.ok (AvgParams.powerLaw 1 (1 / 10))
    ∧ averageApply (AvgParams.powerLaw 1 (1 / 10)) [5] 40 80 = [5]
    ∧ scalePower [5] 40 80 1 = [10]
    ∧ averageApply (AvgParams.powerLaw 1 (1 / 10)) [5] 40 80 ≠ scalePower [5] 40 80 1 := by
  have happly : averageApply (AvgParams.powerLaw 1 (1 / 10)) [5] 40 80 = [5] := by
    simp only [averageApply, scalePower, List.map_cons, List.map_nil]
    norm_num
  have hspec : scalePower [5] 40 80 1 = [10] := by
    simp only [scalePower, List.map_cons, List.map_nil]
    norm_num [show (80 : ℝ) / 40 = 2 by norm_num, Real.rpow_one]
  refine ⟨?_, happly, hspec, ?_⟩
  · simp only [averageInit, meanWspds_4_8]
    norm_num [calcPowerLaw_4_8_40_80]
  · rw [happly, hspec]
    intro hcon
    have h5 : (5 : ℝ) = 10 := List.head_eq_of_cons_eq hcon
    norm_num at h5

/-- Claim C3: no Shear Average estimator fitted with the log law can ever
exist: for every wind-speed matrix, heights list and minimum speed, a
construction with calc_method 'log_law' fails -- either the minimum-speed
filter leaves no rows (ValueError, shear.py line 245), or the constructor
reaches `output_data['alpha'] = alpha` (line 271) with the local `alpha`
assigned only on the power-law branch and raises UnboundLocalError -- so
the log-law scaling that `apply` would perform is unreachable. -/
theorem averageInit_logLaw_always_error (wspds : List (List (Option ℚ)))
    (heights : List ℚ) (minSpeed : ℚ) :
    ∃ msg, averageInit wspds heights "log_law" minSpeed = Except.error msg := by
  simp only [averageInit]
  split_ifs with hA hB
  · exact ⟨_, rfl⟩
  · exact absurd hB (by decide)
  · exact ⟨_, rfl⟩

/-- Witness for claim C8: one row (speed 2) below min_speed 3 and an invalid
method name 'banana'. -/
theorem averageInit_domain_errors_witness :
    averageInit [[some 2]] [10] "banana" 3
      = Except.error "None of the input wind speeds are greater than the min_speed, cannot calculate shear"
    ∧ ∃ msg, averageInit [[some 2]] [10] "banana" 3 = Except.error msg :=
  ⟨(averageInit_domain_errors [[some 2]] [10] "banana" 3).1
      (by norm_num [survivingRows, dropnaRows, List.filter]),
   (averageInit_domain_errors [[some 2]] [10] "banana" 3).2
      (by decide) (by decide)⟩

end Brightwind
